import Mathlib

/-!
Shallow embedding of `packages/controllers/src/plugins/PluginController.ts`.

Plugin records are JavaScript objects; we model them as association lists from
field names to a small universe of values (`Obj`), which keeps the field-set
claims (which fields survive each projection) faithful to the reflective
field-copying the source performs.  External collaborators (network fetches,
the permission gateway, the worker/execution backend) are modelled as a pure
environment `Env` of total functions returning `Except`, mirroring promise
resolution/rejection.  The source's async operations run in a single-flow
cooperative model: an `await` sequences the awaited computation at that point,
and calls into collaborators are recorded in an `Effect` trace in program
order (the trace also records internally observable mutations such as RPC-hook
removal and the synchronous publish performed by `updateState`).
-/

/-- A JavaScript value stored in a plugin-record field: a string, a boolean,
a permissions object (capability name → opaque parameter blob), or
`undefined`. -/
inductive Value where
  | vStr (s : String)
  | vBool (b : Bool)
  | vPerms (perms : List (String × String))
  | vUndef
deriving DecidableEq

/-- A JavaScript object: an ordered association list of named fields. -/
abbrev Obj := List (String × Value)

/-- Lookup of a key in an association list (JS property read / `Map.get`). -/
def alookup {α : Type} : List (String × α) → String → Option α
  | [], _ => none
  | kv :: rest, k => if kv.1 = k then some kv.2 else alookup rest k

/-- `m[k] = v` / `Map.set`: replace the first binding of `k` in place, or
append a new binding at the end (JS insertion-order semantics). -/
def aset {α : Type} : List (String × α) → String → α → List (String × α)
  | [], k, v => [(k, v)]
  | kv :: rest, k, v => if kv.1 = k then (k, v) :: rest else kv :: aset rest k v

/-- `delete m[k]` / `Map.delete`: remove the bindings of `k`. -/
def aerase {α : Type} : List (String × α) → String → List (String × α)
  | [], _ => []
  | kv :: rest, k => if kv.1 = k then aerase rest k else kv :: aerase rest k

/-- The keys of an association list, in order (`Object.keys`). -/
def keysOf {α : Type} (m : List (String × α)) : List String :=
  m.map Prod.fst

/-- JS object spread `\x7b...a, ...b\x7d`: fields of `b` override fields of
`a`, new fields appended in order. -/
def objMerge (a b : Obj) : Obj :=
  b.foldl (fun acc kv => aset acc kv.1 kv.2) a

/-- JavaScript truthiness of a `Value`. -/
def truthy : Value → Bool
  | Value.vStr s => !(s = "")
  | Value.vBool b => b
  | Value.vPerms _ => true
  | Value.vUndef => false

/-- Read a string-valued field, defaulting to `""` (only reached on records
whose field has the expected shape in every execution path we model). -/
def getStr (o : Obj) (k : String) : String :=
  match alookup o k with
  | some (Value.vStr s) => s
  | _ => ""

/-- `PLUGIN_PREFIX` from the source. -/
def PLUGIN_PREFIX : String := "wallet_plugin_"

/-- `SERIALIZABLE_PLUGIN_PROPERTIES` from the source: the field names retained
by `getSerializable`. -/
def SERIALIZABLE_PLUGIN_PROPERTIES : List String :=
  ["initialPermissions", "name", "permissionName"]

/-- The five fields of a stored `Plugin` record (interface `Plugin` in the
source). -/
def standardPluginKeys : List String :=
  ["name", "initialPermissions", "permissionName", "sourceCode", "isActive"]

/-- A stored record is well-formed when it has every `Plugin` field. -/
def wellFormedPlugin (obj : Obj) : Bool :=
  standardPluginKeys.all (fun k => decide (k ∈ keysOf obj))

/-- `PluginControllerState`: the canonical, privileged store. -/
structure ControllerState where
  plugins : List (String × Obj)
  pluginStates : List (String × Value)
deriving DecidableEq

/-- `PluginControllerMemState`: the trust-safe memory projection. -/
structure MemState where
  inlinePluginIsRunning : Bool
  plugins : List (String × Obj)
  pluginStates : List (String × Value)
deriving DecidableEq

/-- `Partial PluginControllerState`: a shallow top-level patch. -/
structure StatePatch where
  plugins : Option (List (String × Obj)) := none
  pluginStates : Option (List (String × Value)) := none
deriving DecidableEq

/-- `Partial PluginControllerMemState`. -/
structure MemPatch where
  inlinePluginIsRunning : Option Bool := none
  plugins : Option (List (String × Obj)) := none
  pluginStates : Option (List (String × Value)) := none
deriving DecidableEq

/-- The mutable fields of a `PluginController` instance: the two stores, the
RPC-hook registry (hook = worker id the forwarding closure captures), the
pending-install markers (`_pluginsBeingAdded`: plugin name → promise handle),
and a counter for allocating fresh promise handles. -/
structure Controller where
  store : ControllerState
  memStore : MemState
  pluginRpcHooks : List (String × String)
  pluginsBeingAdded : List (String × Nat)
  nextHandle : Nat
deriving DecidableEq

/-- External collaborators, as pure total functions; `Except.error` models
promise rejection.  `fetchManifest` collapses the manifest fetch, JSON parse
and `web3Wallet` destructuring into one step returning
`(bundle.url, initialPermissions)`; `pendingResult` gives the settlement of a
promise already stored in the pending-install map when it is awaited. -/
structure Env where
  fetchManifest : String → Except String (String × List (String × String))
  fetchText : String → Except String String
  requestPermissions : String → List (String × String) → Except String (List String)
  hasPermission : String → String → Bool
  createWorker : String → Except String String
  startPlugin : String → String → String → Except String Unit
  pendingResult : String → Except String Obj

/-- Observable events, in program order: collaborator calls, plus the
internally observable hook-registry mutations and the synchronous publish each
`updateState` performs. -/
inductive Effect where
  | fetch (url : String)
  | requestPerms (domain : String)
  | createWorker (hostname : String)
  | startPlugin (workerId : String) (pluginId : String)
  | removeHook (pluginName : String)
  | closeAllConnections (domain : String)
  | terminateWorkerOf (pluginName : String)
  | revokeAllPermissionsFor (ids : List String)
  | publish
deriving DecidableEq

/-- Result type of `processRequestedPlugin`: a serializable view or a
structured error envelope (`ProcessPluginReturnType` in the source). -/
inductive ProcessResult where
  | view (v : Obj)
  | err (e : String)
deriving DecidableEq

/-- True iff the result is a serializable view. -/
def ProcessResult.isView : ProcessResult → Bool
  | ProcessResult.view _ => true
  | ProcessResult.err _ => false

/-- True iff the result is an error envelope. -/
def ProcessResult.isErr : ProcessResult → Bool
  | ProcessResult.view _ => false
  | ProcessResult.err _ => true

/-- A task spawned (but not yet awaited) by the synchronous body of `add`. -/
inductive SpawnedTask where
  | addTask (pluginName : String) (sourceUrl : Option String)
deriving DecidableEq

/-- `_filterMemStoreState`: builds the mem-store patch from a canonical patch.
The source spreads the patch, always resets `plugins` to an empty object, then
copies each plugin object with its `sourceCode` field deleted (and only that
field deleted). -/
def _filterMemStoreState (p : StatePatch) : MemPatch :=
  { inlinePluginIsRunning := none
    plugins := some ((p.plugins.getD []).map (fun nv => (nv.1, aerase nv.2 "sourceCode")))
    pluginStates := p.pluginStates }

/-- `ObservableStore.updateState` on the canonical store: shallow top-level
merge of the patch. -/
def applyPatch (s : ControllerState) (p : StatePatch) : ControllerState :=
  { plugins := p.plugins.getD s.plugins
    pluginStates := p.pluginStates.getD s.pluginStates }

/-- `ObservableStore.updateState` on the mem store. -/
def applyMemPatch (m : MemState) (p : MemPatch) : MemState :=
  { inlinePluginIsRunning := p.inlinePluginIsRunning.getD m.inlinePluginIsRunning
    plugins := p.plugins.getD m.plugins
    pluginStates := p.pluginStates.getD m.pluginStates }

/-- `updateState`: patches the canonical store and synchronously publishes the
filtered projection into the mem store. -/
def updateState (c : Controller) (p : StatePatch) : Controller :=
  { c with
    store := applyPatch c.store p
    memStore := applyMemPatch c.memStore (_filterMemStoreState p) }

/-- `get(pluginName)`: the full privileged record, if present (named
`getPlugin` here only because `get` clashes with a library name). -/
def getPlugin (c : Controller) (pluginName : String) : Option Obj :=
  alookup c.store.plugins pluginName

/-- `getSerializable(pluginName)`: reduces over the record's keys, retaining
exactly those in `SERIALIZABLE_PLUGIN_PROPERTIES`; `null` when absent. -/
def getSerializable (c : Controller) (pluginName : String) : Option Obj :=
  (getPlugin c pluginName).map
    (fun plugin => plugin.filter (fun kv => decide (kv.1 ∈ SERIALIZABLE_PLUGIN_PROPERTIES)))

/-- `getRpcMessageHandler(pluginName)`: the registered RPC hook, if any. -/
def getRpcMessageHandler (c : Controller) (pluginName : String) : Option String :=
  alookup c.pluginRpcHooks pluginName

/-- `plugin?.isActive` truthiness test used by `processRequestedPlugin`. -/
def isActivePlugin (c : Controller) (pluginName : String) : Bool :=
  match alookup c.store.plugins pluginName with
  | some plugin =>
    match alookup plugin "isActive" with
    | some v => truthy v
    | none => false
  | none => false

/-- `_updatePlugin(pluginName, property, value)`: spread-copy the record with
one field overridden, and write the result through `updateState`. -/
def _updatePlugin (c : Controller) (pluginName property : String) (value : Value) : Controller :=
  let plugins := c.store.plugins
  let plugin := (alookup plugins pluginName).getD []
  updateState c { plugins := some (aset plugins pluginName (aset plugin property value)) }

/-- `_setPluginToActive`. -/
def _setPluginToActive (c : Controller) (pluginName : String) : Controller :=
  _updatePlugin c pluginName "isActive" (Value.vBool true)

/-- `_startPluginInWorker(pluginName, sourceCode)`: create the worker,
register the RPC hook before signalling start, send the start command, and
only on acknowledged success flip `isActive`.  Failures propagate
(`Except.error`); note the hook installed before a failing start command is
left registered. -/
def _startPluginInWorker (env : Env) (pluginName sourceCode : String) (c : Controller) :
    Except String Unit × Controller × List Effect :=
  match env.createWorker pluginName with
  | Except.error e => (Except.error e, c, [Effect.createWorker pluginName])
  | Except.ok workerId =>
    let c1 := { c with pluginRpcHooks := aset c.pluginRpcHooks pluginName workerId }
    match env.startPlugin workerId pluginName sourceCode with
    | Except.error e =>
      (Except.error e, c1,
        [Effect.createWorker pluginName, Effect.startPlugin workerId pluginName])
    | Except.ok _ =>
      (Except.ok (), _setPluginToActive c1 pluginName,
        [Effect.createWorker pluginName, Effect.startPlugin workerId pluginName,
          Effect.publish])

/-- `_add(pluginName, sourceUrl?)`: fetch and destructure the manifest, fetch
the bundle text, construct the record (inactive), merge over any prior record
for the same id, and write it into the store.  Fetch/parse failures are
wrapped with the plugin name. -/
def _add (env : Env) (pluginName : String) (sourceUrl : Option String) (c : Controller) :
    Except String Obj × Controller × List Effect :=
  let u := match sourceUrl with
    | some s => if s = "" then pluginName else s
    | none => pluginName
  if pluginName = "" then
    (Except.error ("Invalid plugin name: " ++ pluginName), c, [])
  else
    match env.fetchManifest u with
    | Except.error e =>
      (Except.error ("Problem loading plugin " ++ pluginName ++ ": " ++ e), c,
        [Effect.fetch u])
    | Except.ok (bundleUrl, initialPermissions) =>
      match env.fetchText bundleUrl with
      | Except.error e =>
        (Except.error ("Problem loading plugin " ++ pluginName ++ ": " ++ e), c,
          [Effect.fetch u, Effect.fetch bundleUrl])
      | Except.ok sourceCode =>
        let plugin : Obj :=
          [("name", Value.vStr pluginName),
            ("initialPermissions", Value.vPerms initialPermissions),
            ("permissionName", Value.vStr (PLUGIN_PREFIX ++ pluginName)),
            ("sourceCode", Value.vStr sourceCode),
            ("isActive", Value.vBool false)]
        let pluginsState := c.store.plugins
        let plugin2 := match alookup pluginsState pluginName with
          | some old => objMerge old plugin
          | none => plugin
        let c2 := updateState c { plugins := some (aset pluginsState pluginName plugin2) }
        (Except.ok plugin2, c2, [Effect.fetch u, Effect.fetch bundleUrl, Effect.publish])

/-- The synchronous body of `add(pluginName, sourceUrl?)`: if a pending
promise for the id exists, return its handle unchanged; otherwise install a
fresh promise handle running `_add` — the source invokes `this._add(pluginName)`
with no second argument.  Returns the promise handle, the new controller
state, and the tasks spawned. -/
def addSpawn (pluginName : String) (sourceUrl : Option String) (c : Controller) :
    Nat × Controller × List SpawnedTask :=
  match alookup c.pluginsBeingAdded pluginName with
  | some h => (h, c, [])
  | none =>
    (c.nextHandle,
      { c with
        pluginsBeingAdded := aset c.pluginsBeingAdded pluginName c.nextHandle
        nextHandle := c.nextHandle + 1 },
      [SpawnedTask.addTask pluginName none])

/-- `await this.add(pluginName)` under the single-flow collapse: a fresh
`_add` (spawned with `sourceUrl` omitted) runs to settlement at the await
point with the marker installed; awaiting a promise already in the map
performs no new effects and settles to that promise's value
(`env.pendingResult`). -/
def addAwait (env : Env) (pluginName : String) (c : Controller) :
    Except String Obj × Controller × List Effect :=
  match alookup c.pluginsBeingAdded pluginName with
  | some _ => (env.pendingResult pluginName, c, [])
  | none =>
    let c1 := { c with
      pluginsBeingAdded := aset c.pluginsBeingAdded pluginName c.nextHandle
      nextHandle := c.nextHandle + 1 }
    _add env pluginName none c1

/-- `authorize(pluginName)`: destructures `initialPermissions` from the stored
record (a missing record or malformed field is a TypeError rejection thrown
before the try block); an empty permissions object returns `[]` immediately —
before the try/finally, so without clearing the pending-install marker;
otherwise the permission request runs and the finally clause deletes the
marker on success and failure alike. -/
def authorize (env : Env) (pluginName : String) (c : Controller) :
    Except String (List String) × Controller × List Effect :=
  match alookup c.store.plugins pluginName with
  | none => (Except.error "TypeError: cannot destructure property of undefined", c, [])
  | some plugin =>
    match alookup plugin "initialPermissions" with
    | some (Value.vPerms perms) =>
      if perms.isEmpty = true then
        (Except.ok [], c, [])
      else
        let c2 := { c with pluginsBeingAdded := aerase c.pluginsBeingAdded pluginName }
        match env.requestPermissions pluginName perms with
        | Except.ok approved => (Except.ok approved, c2, [Effect.requestPerms pluginName])
        | Except.error e => (Except.error e, c2, [Effect.requestPerms pluginName])
    | _ => (Except.error "TypeError: initialPermissions is not an object", c, [])

/-- `processRequestedPlugin(pluginName)`: already-active records short-circuit
to their serializable view; otherwise add → authorize → start run in sequence
and every failure is caught and converted into an error envelope. -/
def processRequestedPlugin (env : Env) (pluginName : String) (c : Controller) :
    ProcessResult × Controller × List Effect :=
  if isActivePlugin c pluginName = true then
    (ProcessResult.view ((getSerializable c pluginName).getD []), c, [])
  else
    match addAwait env pluginName c with
    | (Except.error e, c1, eff1) => (ProcessResult.err e, c1, eff1)
    | (Except.ok plugin, c1, eff1) =>
      let sourceCode := getStr plugin "sourceCode"
      match authorize env pluginName c1 with
      | (Except.error e, c2, eff2) => (ProcessResult.err e, c2, eff1 ++ eff2)
      | (Except.ok _, c2, eff2) =>
        match _startPluginInWorker env pluginName sourceCode c2 with
        | (Except.error e, c3, eff3) => (ProcessResult.err e, c3, eff1 ++ eff2 ++ eff3)
        | (Except.ok _, c3, eff3) =>
          (ProcessResult.view ((getSerializable c3 pluginName).getD []), c3,
            eff1 ++ eff2 ++ eff3)

/-- The unauthorized error message produced by `installPlugins`. -/
def unauthorizedMsg (pluginName : String) : String :=
  "Not authorized to install plugin " ++ pluginName ++
    ". Request the permission for the plugin before attempting to install it."

/-- One iteration of `installPlugins`: gate on the `prefix+id` capability,
then either run `processRequestedPlugin` or record the unauthorized error with
no collaborator calls and no state change. -/
def installStep (env : Env) (origin : String)
    (acc : List (String × ProcessResult) × Controller × List Effect)
    (pluginName : String) :
    List (String × ProcessResult) × Controller × List Effect :=
  if env.hasPermission origin (PLUGIN_PREFIX ++ pluginName) = true then
    let p := processRequestedPlugin env pluginName acc.2.1
    (acc.1 ++ [(pluginName, p.1)], p.2.1, acc.2.2 ++ p.2.2)
  else
    (acc.1 ++ [(pluginName, ProcessResult.err (unauthorizedMsg pluginName))],
      acc.2.1, acc.2.2)

/-- `installPlugins(origin, requestedPlugins)` over the requested ids
(`Object.keys` of the request — the request's values are never read). -/
def installPlugins (env : Env) (origin : String) (requested : List String)
    (c : Controller) :
    List (String × ProcessResult) × Controller × List Effect :=
  requested.foldl (installStep env origin) ([], c, [])

/-- The per-id effect sequence of `removePlugins`, in source order: hook
removal, closing the id's connections, terminating its worker. -/
def removalTrace : List String → List Effect
  | [] => []
  | n :: rest =>
    Effect.removeHook n :: Effect.closeAllConnections n ::
      Effect.terminateWorkerOf n :: removalTrace rest

/-- `removePlugins(pluginNames)`: per id — delete the RPC hook, close
connections, terminate the worker, delete the record and the opaque plugin
state — then once per batch revoke all permissions for the full list, and
finally publish the updated state. -/
def removePlugins (pluginNames : List String) (c : Controller) :
    Controller × List Effect :=
  let newPlugins := pluginNames.foldl (fun m n => aerase m n) c.store.plugins
  let newPluginStates := pluginNames.foldl (fun m n => aerase m n) c.store.pluginStates
  let hooks := pluginNames.foldl (fun m n => aerase m n) c.pluginRpcHooks
  let c1 := { c with pluginRpcHooks := hooks }
  let c2 := updateState c1 { plugins := some newPlugins, pluginStates := some newPluginStates }
  (c2,
    removalTrace pluginNames ++
      [Effect.revokeAllPermissionsFor pluginNames, Effect.publish])

/-- `removePlugin(pluginName)`. -/
def removePlugin (pluginName : String) (c : Controller) : Controller × List Effect :=
  removePlugins [pluginName] c

/-- `runExistingPlugins()`: iterates the persisted records and calls the async
`_startPluginInWorker` for each WITHOUT awaiting it — an async rejection
therefore bypasses the enclosing try/catch (an async function never throws
synchronously), so the model runs each start to settlement and discards its
outcome: the catch's `removePlugin` cleanup is unreachable for start
failures. -/
def runExistingPlugins (env : Env) (c : Controller) : Controller × List Effect :=
  (c.store.plugins.map Prod.snd).foldl
    (fun acc obj =>
      let r := _startPluginInWorker env (getStr obj "name") (getStr obj "sourceCode") acc.1
      (r.2.1, acc.2 ++ r.2.2))
    (c, [])

/-- A controller with empty stores, as built by the constructor with no
initial state. -/
def emptyController : Controller :=
  { store := { plugins := [], pluginStates := [] }
    memStore := { inlinePluginIsRunning := false, plugins := [], pluginStates := [] }
    pluginRpcHooks := []
    pluginsBeingAdded := []
    nextHandle := 0 }

theorem alookup_aset_self {α : Type} (m : List (String × α)) (k : String) (v : α) :
    alookup (aset m k v) k = some v := by
  induction m with
  | nil => simp [aset, alookup]
  | cons kv rest ih =>
    by_cases h : kv.1 = k
    · simp [aset, h, alookup]
    · simp [aset, h, alookup, ih]

theorem alookup_aerase_self {α : Type} (m : List (String × α)) (k : String) :
    alookup (aerase m k) k = none := by
  induction m with
  | nil => simp [aerase, alookup]
  | cons kv rest ih =>
    by_cases h : kv.1 = k
    · simpa [aerase, h] using ih
    · simp [aerase, h, alookup, ih]

theorem alookup_aerase_other {α : Type} (m : List (String × α)) (k k' : String)
    (h : ¬ k' = k) : alookup (aerase m k) k' = alookup m k' := by
  induction m with
  | nil => rfl
  | cons kv rest ih =>
    by_cases h2 : kv.1 = k
    · have hne : ¬ k = k' := fun hh => h hh.symm
      simp [aerase, h2, alookup, hne, ih]
    · simp [aerase, h2, alookup, ih]

theorem alookup_foldl_aerase {α : Type} (ids : List String) (m : List (String × α))
    (k : String) :
    alookup (ids.foldl (fun m n => aerase m n) m) k =
      if k ∈ ids then none else alookup m k := by
  induction ids generalizing m with
  | nil => simp
  | cons n rest ih =>
    simp only [List.foldl_cons]
    rw [ih]
    by_cases h : k ∈ rest
    · simp [h]
    · by_cases h2 : k = n
      · subst h2
        simp [h, alookup_aerase_self]
      · simp [h, h2, alookup_aerase_other _ _ _ h2]

theorem alookup_aerase_map (m : List (String × Obj)) (k : String) :
    alookup (m.map (fun nv => (nv.1, aerase nv.2 "sourceCode"))) k =
      (alookup m k).map (fun o => aerase o "sourceCode") := by
  induction m with
  | nil => rfl
  | cons kv rest ih =>
    by_cases h : kv.1 = k
    · simp [alookup, h]
    · simp [alookup, h, ih]

theorem keysOf_aerase_not_mem {α : Type} (m : List (String × α)) (k : String) :
    k ∉ keysOf (aerase m k) := by
  induction m with
  | nil => simp [aerase, keysOf]
  | cons kv rest ih =>
    by_cases h : kv.1 = k
    · simpa [aerase, h] using ih
    · simp only [aerase, h, if_false, keysOf, List.map_cons, List.mem_cons] at ih ⊢
      exact fun hc => hc.elim (fun hh => h hh.symm) ih

/-- C1: for every plugin id present in the store (with a well-formed record),
`getSerializable` returns a view whose fields are exactly
`initialPermissions`, `name` and `permissionName` — in particular never
`sourceCode` — and for an absent id it returns nothing. -/
theorem getSerializable_exact_fields (c : Controller) (pluginName : String) :
    (alookup c.store.plugins pluginName = none → getSerializable c pluginName = none) ∧
    (∀ obj, alookup c.store.plugins pluginName = some obj → wellFormedPlugin obj = true →
      ∃ v, getSerializable c pluginName = some v ∧
        (∀ k, k ∈ keysOf v ↔ k ∈ SERIALIZABLE_PLUGIN_PROPERTIES) ∧
        "sourceCode" ∉ keysOf v) := by
  constructor
  · intro h
    simp [getSerializable, getPlugin, h]
  · intro obj hobj hwf
    have hiff : ∀ k, k ∈ keysOf
        (obj.filter (fun kv => decide (kv.1 ∈ SERIALIZABLE_PLUGIN_PROPERTIES))) ↔
        k ∈ SERIALIZABLE_PLUGIN_PROPERTIES := by
      intro k
      constructor
      · intro hk
        simp only [keysOf, List.mem_map] at hk
        obtain ⟨kv, hkv, hkeq⟩ := hk
        have hfil := List.of_mem_filter hkv
        rw [← hkeq]
        exact of_decide_eq_true hfil
      · intro hk
        have hstd : k ∈ standardPluginKeys := by
          simp only [SERIALIZABLE_PLUGIN_PROPERTIES, List.mem_cons,
            List.not_mem_nil, or_false] at hk
          rcases hk with rfl | rfl | rfl <;> simp [standardPluginKeys]
        have hall : ∀ x ∈ standardPluginKeys, decide (x ∈ keysOf obj) = true := by
          simpa [wellFormedPlugin, List.all_eq_true] using hwf
        have hkeys : k ∈ keysOf obj := of_decide_eq_true (hall k hstd)
        simp only [keysOf, List.mem_map] at hkeys ⊢
        obtain ⟨kv, hkv, hkeq⟩ := hkeys
        refine ⟨kv, List.mem_filter.mpr ⟨hkv, ?_⟩, hkeq⟩
        rw [hkeq]
        exact decide_eq_true hk
    refine ⟨obj.filter (fun kv => decide (kv.1 ∈ SERIALIZABLE_PLUGIN_PROPERTIES)),
      ?_, hiff, ?_⟩
    · simp [getSerializable, getPlugin, hobj]
    · intro hmem
      have := (hiff _).mp hmem
      simp [SERIALIZABLE_PLUGIN_PROPERTIES] at this

/-- A concrete well-formed plugin record. -/
def objFoo : Obj :=
  [("name", Value.vStr "foo"),
    ("initialPermissions", Value.vPerms [("snap_confirm", "p")]),
    ("permissionName", Value.vStr "wallet_plugin_foo"),
    ("sourceCode", Value.vStr "code"),
    ("isActive", Value.vBool false)]

/-- A controller whose store holds exactly the record `objFoo` under id
`foo`. -/
def cC1 : Controller :=
  { emptyController with store := { plugins := [("foo", objFoo)], pluginStates := [] } }

theorem getSerializable_exact_fields_witness :
    getSerializable cC1 "absent" = none ∧
    ∃ v, getSerializable cC1 "foo" = some v ∧
      (∀ k, k ∈ keysOf v ↔ k ∈ SERIALIZABLE_PLUGIN_PROPERTIES) ∧
      "sourceCode" ∉ keysOf v :=
  ⟨(getSerializable_exact_fields cC1 "absent").1 (by decide),
    (getSerializable_exact_fields cC1 "foo").2 objFoo (by decide) (by decide)⟩

/-- The patch written when the record `objFoo` is stored. -/
def patchC2 : StatePatch := { plugins := some [("foo", objFoo)] }

/-- C2 counterexample: after a state update, the mem-store entry for `foo`
still contains the `isActive` field, refuting that `MemState.plugins[id]`
contains exactly `initialPermissions`, `name` and `permissionName`. -/
theorem memState_retains_isActive_cex :
    alookup (updateState emptyController patchC2).memStore.plugins "foo" =
      some (aerase objFoo "sourceCode") ∧
    "isActive" ∈ keysOf (aerase objFoo "sourceCode") :=
  ⟨by decide, by decide⟩

/-- C2 (amended): after every state update, each entry of
`MemState.plugins[id]` is the corresponding patched record with exactly its
`sourceCode` field removed — so it never contains `sourceCode`, but it does
retain `isActive`. -/
theorem memState_never_sourceCode (c : Controller) (p : StatePatch)
    (pluginName : String) (v : Obj)
    (h : alookup (updateState c p).memStore.plugins pluginName = some v) :
    "sourceCode" ∉ keysOf v ∧
    ∃ obj, alookup (p.plugins.getD []) pluginName = some obj ∧
      v = aerase obj "sourceCode" := by
  have hmem : (updateState c p).memStore.plugins =
      (p.plugins.getD []).map (fun nv => (nv.1, aerase nv.2 "sourceCode")) := by
    simp [updateState, applyMemPatch, _filterMemStoreState]
  rw [hmem, alookup_aerase_map] at h
  cases hl : alookup (p.plugins.getD []) pluginName with
  | none =>
    rw [hl] at h
    simp at h
  | some o =>
    rw [hl] at h
    simp only [Option.map_some', Option.some.injEq] at h
    subst h
    exact ⟨keysOf_aerase_not_mem o "sourceCode", o, rfl, rfl⟩

theorem memState_never_sourceCode_witness :
    "sourceCode" ∉ keysOf (aerase objFoo "sourceCode") ∧
    ∃ obj, alookup (patchC2.plugins.getD []) "foo" = some obj ∧
      aerase objFoo "sourceCode" = aerase obj "sourceCode" :=
  memState_never_sourceCode emptyController patchC2 "foo"
    (aerase objFoo "sourceCode") (by decide)

/-- A record for `foo` with an empty `initialPermissions` object. -/
def objFooNoPerms : Obj :=
  [("name", Value.vStr "foo"),
    ("initialPermissions", Value.vPerms []),
    ("permissionName", Value.vStr "wallet_plugin_foo"),
    ("sourceCode", Value.vStr "code"),
    ("isActive", Value.vBool false)]

/-- A benign concrete environment: manifest and bundle fetches succeed, the
permission gateway approves every request, workers start successfully. -/
def envEx : Env :=
  { fetchManifest := fun _ => Except.ok ("bundle-url", [])
    fetchText := fun _ => Except.ok "code"
    requestPermissions := fun _ perms => Except.ok (perms.map Prod.fst)
    hasPermission := fun _ _ => false
    createWorker := fun h => Except.ok h
    startPlugin := fun _ _ _ => Except.ok ()
    pendingResult := fun _ => Except.error "pending" }

/-- A controller holding `foo` (empty permissions) with a pending-install
marker for `foo`. -/
def cC3 : Controller :=
  { emptyController with
    store := { plugins := [("foo", objFooNoPerms)], pluginStates := [] }
    pluginsBeingAdded := [("foo", 0)] }

/-- C3 counterexample: `authorize("foo")` settles (resolves to `[]`) through
the empty-initialPermissions short-circuit, yet the pending-install marker for
`foo` is still present afterwards — the short-circuit returns before the
try/finally that clears the marker. -/
theorem authorize_empty_marker_cex :
    (authorize envEx "foo" cC3).1 = Except.ok [] ∧
    alookup (authorize envEx "foo" cC3).2.1.pluginsBeingAdded "foo" = some 0 :=
  ⟨rfl, by decide⟩

/-- C3 (amended): for every id with a stored record whose
`initialPermissions` is nonempty, after `authorize(id)` settles — resolve or
reject — the pending-install marker for id has been removed; the
empty-initialPermissions short-circuit instead returns without clearing the
marker. -/
theorem authorize_request_path_clears_marker (env : Env) (c : Controller)
    (pluginName : String) (obj : Obj) (perms : List (String × String))
    (hstore : alookup c.store.plugins pluginName = some obj)
    (hperms : alookup obj "initialPermissions" = some (Value.vPerms perms))
    (hne : perms ≠ []) :
    alookup (authorize env pluginName c).2.1.pluginsBeingAdded pluginName = none := by
  have hempty : perms.isEmpty = false := by
    cases perms with
    | nil => exact absurd rfl hne
    | cons a l => rfl
  simp only [authorize, hstore, hperms, hempty]
  cases henv : env.requestPermissions pluginName perms <;>
    simp [henv, alookup_aerase_self]

/-- A controller holding `foo` (nonempty permissions) with a pending-install
marker for `foo`. -/
def cC3b : Controller :=
  { emptyController with
    store := { plugins := [("foo", objFoo)], pluginStates := [] }
    pluginsBeingAdded := [("foo", 0)] }

theorem authorize_request_path_clears_marker_witness :
    alookup (authorize envEx "foo" cC3b).2.1.pluginsBeingAdded "foo" = none :=
  authorize_request_path_clears_marker envEx cC3b "foo" objFoo
    [("snap_confirm", "p")] (by decide) (by decide) (by decide)

/-- C8: while a pending-install marker for an id exists, a further call to
`add(id)` returns the identical pending promise handle, leaves the controller
unchanged (no duplicate store write), and spawns no new fetch task — at most
one in-flight add per id, with concurrent callers attached to the same
outcome. -/
theorem add_dedup_pending (pluginName : String) (sourceUrl : Option String)
    (c : Controller) (h : Nat)
    (hpend : alookup c.pluginsBeingAdded pluginName = some h) :
    addSpawn pluginName sourceUrl c = (h, c, []) := by
  simp [addSpawn, hpend]

theorem add_dedup_pending_witness :
    addSpawn "foo" none cC3 = (0, cC3, []) :=
  add_dedup_pending "foo" none cC3 0 (by decide)

/-- C10: the public `add(pluginName, sourceUrl)` behaves identically for every
`sourceUrl` value — the argument is never forwarded to `_add`, every spawned
installation task carries no source url, and `_add` run without a source url
fetches the manifest from the plugin id itself. -/
theorem add_ignores_sourceUrl (pluginName : String) (sourceUrl : Option String)
    (env : Env) (c c' : Controller) (hname : ¬ pluginName = "") :
    addSpawn pluginName sourceUrl c = addSpawn pluginName none c ∧
    (∀ t ∈ (addSpawn pluginName sourceUrl c).2.2,
      t = SpawnedTask.addTask pluginName none) ∧
    (_add env pluginName none c').2.2.head? = some (Effect.fetch pluginName) := by
  refine ⟨rfl, ?_, ?_⟩
  · intro t ht
    simp only [addSpawn] at ht
    cases halook : alookup c.pluginsBeingAdded pluginName with
    | some h =>
      rw [halook] at ht
      simp at ht
    | none =>
      rw [halook] at ht
      simp at ht
      exact ht
  · simp only [_add, if_neg hname]
    cases hm : env.fetchManifest pluginName with
    | error e => simp
    | ok pr =>
      cases pr with
      | mk bundleUrl perms =>
        cases hb : env.fetchText bundleUrl with
        | error e => simp [hb]
        | ok sc => simp [hb]

theorem add_ignores_sourceUrl_witness :
    addSpawn "foo" (some "other-url") emptyController =
      addSpawn "foo" none emptyController ∧
    (∀ t ∈ (addSpawn "foo" (some "other-url") emptyController).2.2,
      t = SpawnedTask.addTask "foo" none) ∧
    (_add envEx "foo" none emptyController).2.2.head? = some (Effect.fetch "foo") :=
  add_ignores_sourceUrl "foo" (some "other-url") envEx emptyController
    emptyController (by decide)

/-- C6: `processRequestedPlugin` always resolves to either a serializable view
or an error envelope (its total result type carries every caught pipeline
failure as `ProcessResult.err`, so nothing raises past its boundary), and when
the plugin is already active it short-circuits to the current serializable
view with no state change and no add/authorize/start effects. -/
theorem processRequested_view_or_error_and_short_circuit
    (env : Env) (pluginName : String) (c : Controller) :
    ((processRequestedPlugin env pluginName c).1.isView = true ∨
      (processRequestedPlugin env pluginName c).1.isErr = true) ∧
    (isActivePlugin c pluginName = true →
      processRequestedPlugin env pluginName c =
        (ProcessResult.view ((getSerializable c pluginName).getD []), c, [])) := by
  constructor
  · cases h : (processRequestedPlugin env pluginName c).1 with
    | view v => left; rfl
    | err e => right; rfl
  · intro h
    simp [processRequestedPlugin, h]

/-- The record `foo`, already active. -/
def objFooActive : Obj :=
  [("name", Value.vStr "foo"),
    ("initialPermissions", Value.vPerms []),
    ("permissionName", Value.vStr "wallet_plugin_foo"),
    ("sourceCode", Value.vStr "code"),
    ("isActive", Value.vBool true)]

/-- A controller in which `foo` is installed and active. -/
def cC6 : Controller :=
  { emptyController with
    store := { plugins := [("foo", objFooActive)], pluginStates := [] } }

theorem processRequested_view_or_error_and_short_circuit_witness :
    ((processRequestedPlugin envEx "foo" cC6).1.isView = true ∨
      (processRequestedPlugin envEx "foo" cC6).1.isErr = true) ∧
    processRequestedPlugin envEx "foo" cC6 =
      (ProcessResult.view ((getSerializable cC6 "foo").getD []), cC6, []) :=
  ⟨(processRequested_view_or_error_and_short_circuit envEx "foo" cC6).1,
    (processRequested_view_or_error_and_short_circuit envEx "foo" cC6).2 (by decide)⟩

theorem installStep_map_fst (env : Env) (origin : String)
    (acc : List (String × ProcessResult) × Controller × List Effect)
    (pluginName : String) :
    (installStep env origin acc pluginName).1.map Prod.fst =
      acc.1.map Prod.fst ++ [pluginName] := by
  by_cases h : env.hasPermission origin (PLUGIN_PREFIX ++ pluginName) = true
  · simp [installStep, h]
  · simp [installStep, h]

theorem installPlugins_keys_aux (env : Env) (origin : String)
    (requested : List String) :
    ∀ acc : List (String × ProcessResult) × Controller × List Effect,
      (requested.foldl (installStep env origin) acc).1.map Prod.fst =
        acc.1.map Prod.fst ++ requested := by
  induction requested with
  | nil =>
    intro acc
    simp
  | cons n rest ih =>
    intro acc
    simp only [List.foldl_cons]
    rw [ih, installStep_map_fst]
    simp

/-- C7: `installPlugins(origin, requestedIds)` resolves to exactly one entry
per requested id, in order; an id whose `prefix+id` capability the origin does
not hold yields the unauthorized error entry with no collaborator call (no
fetch) and no controller-state change; an id whose capability is held yields
the result of `processRequestedPlugin` for that id at the then-current
state. -/
theorem installPlugins_entries (env : Env) (origin : String)
    (requested : List String) (c : Controller) :
    (installPlugins env origin requested c).1.map Prod.fst = requested ∧
    (∀ pluginName acc,
      env.hasPermission origin (PLUGIN_PREFIX ++ pluginName) = false →
      installStep env origin acc pluginName =
        (acc.1 ++ [(pluginName, ProcessResult.err (unauthorizedMsg pluginName))],
          acc.2.1, acc.2.2)) ∧
    (∀ pluginName acc,
      env.hasPermission origin (PLUGIN_PREFIX ++ pluginName) = true →
      installStep env origin acc pluginName =
        (acc.1 ++ [(pluginName, (processRequestedPlugin env pluginName acc.2.1).1)],
          (processRequestedPlugin env pluginName acc.2.1).2.1,
          acc.2.2 ++ (processRequestedPlugin env pluginName acc.2.1).2.2)) := by
  refine ⟨?_, ?_, ?_⟩
  · simpa using installPlugins_keys_aux env origin requested ([], c, [])
  · intro pluginName acc h
    simp [installStep, h]
  · intro pluginName acc h
    simp [installStep, h]

/-- `envEx` with every capability granted. -/
def envHasPerm : Env := { envEx with hasPermission := fun _ _ => true }

theorem installPlugins_entries_witness :
    (installPlugins envEx "site" ["p1"] emptyController).1.map Prod.fst = ["p1"] ∧
    installStep envEx "site" ([], emptyController, []) "p1" =
      ([("p1", ProcessResult.err (unauthorizedMsg "p1"))], emptyController, []) ∧
    installStep envHasPerm "site" ([], emptyController, []) "p1" =
      ([("p1", (processRequestedPlugin envHasPerm "p1" emptyController).1)],
        (processRequestedPlugin envHasPerm "p1" emptyController).2.1,
        (processRequestedPlugin envHasPerm "p1" emptyController).2.2) :=
  ⟨(installPlugins_entries envEx "site" ["p1"] emptyController).1,
    by simpa using
      (installPlugins_entries envEx "site" [] emptyController).2.1 "p1"
        ([], emptyController, []) rfl,
    by simpa using
      (installPlugins_entries envHasPerm "site" [] emptyController).2.2 "p1"
        ([], emptyController, []) rfl⟩

/-- `envEx` but the worker start command always rejects. -/
def envStartFails : Env :=
  { envEx with startPlugin := fun _ _ _ => Except.error "worker failed to start" }

/-- C4 counterexample: context creation succeeds and the start command fails,
yet after `processRequestedPlugin("foo")` the record for `foo` is still in the
store and the RPC hook for `foo` is still registered — the claimed removal
does not happen and the hook/context invariant is not restored. -/
theorem start_failure_leaves_orphan_cex :
    (processRequestedPlugin envStartFails "foo" emptyController).1.isErr = true ∧
    (alookup (processRequestedPlugin envStartFails "foo"
      emptyController).2.1.store.plugins "foo").isSome = true ∧
    (alookup (processRequestedPlugin envStartFails "foo"
      emptyController).2.1.pluginRpcHooks "foo").isSome = true :=
  ⟨by decide, by decide, by decide⟩

/-- C4 (amended): if the start step fails during `processRequestedPlugin(id)`
for a fresh id (manifest and bundle fetched, context created, start command
rejected), the failure is caught and returned as an error envelope, but the
freshly written record for id remains in the store and the RPC hook
registered before the start command remains registered — the record is not
removed and the hook/context invariant is not restored. -/
theorem start_failure_keeps_record_and_hook
    (env : Env) (c : Controller) (pluginName u sc wid e : String)
    (hname : ¬ pluginName = "")
    (hact : isActivePlugin c pluginName = false)
    (hmark : alookup c.pluginsBeingAdded pluginName = none)
    (hstore : alookup c.store.plugins pluginName = none)
    (hman : env.fetchManifest pluginName = Except.ok (u, []))
    (hbun : env.fetchText u = Except.ok sc)
    (hcw : env.createWorker pluginName = Except.ok wid)
    (hsp : env.startPlugin wid pluginName sc = Except.error e) :
    (processRequestedPlugin env pluginName c).1 = ProcessResult.err e ∧
    (alookup (processRequestedPlugin env pluginName c).2.1.store.plugins
      pluginName).isSome = true ∧
    alookup (processRequestedPlugin env pluginName c).2.1.pluginRpcHooks
      pluginName = some wid := by
  simp only [processRequestedPlugin, hact, Bool.false_eq_true, if_false,
    addAwait, hmark, _add, if_neg hname, hman, hbun, hstore, getStr,
    authorize, _startPluginInWorker, hcw, hsp, updateState, applyPatch,
    applyMemPatch, _filterMemStoreState, alookup_aset_self, alookup,
    List.isEmpty_nil, Option.getD_some]
  simp [hsp, alookup_aset_self]

theorem start_failure_keeps_record_and_hook_witness :
    (processRequestedPlugin envStartFails "foo" emptyController).1 =
      ProcessResult.err "worker failed to start" ∧
    (alookup (processRequestedPlugin envStartFails "foo"
      emptyController).2.1.store.plugins "foo").isSome = true ∧
    alookup (processRequestedPlugin envStartFails "foo"
      emptyController).2.1.pluginRpcHooks "foo" = some "foo" :=
  start_failure_keeps_record_and_hook envStartFails emptyController "foo"
    "bundle-url" "code" "foo" "worker failed to start" (by decide) rfl rfl rfl
    rfl rfl rfl rfl

/-- A valid persisted record `a`. -/
def objA : Obj :=
  [("name", Value.vStr "a"),
    ("initialPermissions", Value.vPerms []),
    ("permissionName", Value.vStr "wallet_plugin_a"),
    ("sourceCode", Value.vStr "sa"),
    ("isActive", Value.vBool false)]

/-- A persisted record `b` whose start will fail. -/
def objB : Obj :=
  [("name", Value.vStr "b"),
    ("initialPermissions", Value.vPerms []),
    ("permissionName", Value.vStr "wallet_plugin_b"),
    ("sourceCode", Value.vStr "sb"),
    ("isActive", Value.vBool false)]

/-- An environment in which exactly plugin `b`'s start command rejects. -/
def envC5 : Env :=
  { envEx with
    startPlugin := fun _ pluginName _ =>
      if pluginName = "b" then Except.error "start failed" else Except.ok () }

/-- Persisted state holding `a` (valid) and `b` (start fails). -/
def cC5 : Controller :=
  { emptyController with
    store := { plugins := [("a", objA), ("b", objB)], pluginStates := [] } }

/-- C5 (evaluation at the failing input): over `a` valid and `b` failing,
`runExistingPlugins` leaves `a` active, but `b` is NOT removed — its record
survives unchanged and its freshly registered RPC hook dangles — because the
un-awaited async start rejection bypasses the catch block whose
`removePlugin` cleanup was meant to delete it. -/
theorem runExistingPlugins_keeps_failed_plugin :
    isActivePlugin (runExistingPlugins envC5 cC5).1 "a" = true ∧
    alookup (runExistingPlugins envC5 cC5).1.store.plugins "b" = some objB ∧
    getRpcMessageHandler (runExistingPlugins envC5 cC5).1 "b" = some "b" :=
  ⟨by decide, by decide, by decide⟩

theorem removalTrace_mem_removeHook (ids : List String) (pluginName : String)
    (h : pluginName ∈ ids) :
    Effect.removeHook pluginName ∈ removalTrace ids := by
  induction ids with
  | nil => simp at h
  | cons n rest ih =>
    rcases List.mem_cons.mp h with rfl | hmem
    · simp [removalTrace]
    · simp [removalTrace, ih hmem]

theorem removalTrace_mem_closeAll (ids : List String) (pluginName : String)
    (h : pluginName ∈ ids) :
    Effect.closeAllConnections pluginName ∈ removalTrace ids := by
  induction ids with
  | nil => simp at h
  | cons n rest ih =>
    rcases List.mem_cons.mp h with rfl | hmem
    · simp [removalTrace]
    · simp [removalTrace, ih hmem]

theorem revoke_not_mem_removalTrace (ids ids' : List String) :
    Effect.revokeAllPermissionsFor ids' ∉ removalTrace ids := by
  induction ids with
  | nil => simp [removalTrace]
  | cons n rest ih => simp [removalTrace, ih]

/-- C9: after `removePlugins(ids)` — with `removePlugin(id)` being exactly
`removePlugins([id])` — every id in the batch has no record, no RPC hook and
no opaque per-plugin state left; the trace carries exactly one batch
permission revocation; and the publish of the updated state is the final
event, strictly after the id's hook removal and connection closing. -/
theorem removePlugins_cleanup (c : Controller) (ids : List String)
    (pluginName : String) (hmem : pluginName ∈ ids) :
    getPlugin (removePlugins ids c).1 pluginName = none ∧
    getRpcMessageHandler (removePlugins ids c).1 pluginName = none ∧
    alookup (removePlugins ids c).1.store.pluginStates pluginName = none ∧
    (removePlugins ids c).2 =
      removalTrace ids ++ [Effect.revokeAllPermissionsFor ids, Effect.publish] ∧
    ((removePlugins ids c).2).count (Effect.revokeAllPermissionsFor ids) = 1 ∧
    Effect.removeHook pluginName ∈ removalTrace ids ∧
    Effect.closeAllConnections pluginName ∈ removalTrace ids ∧
    removePlugin pluginName c = removePlugins [pluginName] c := by
  have hpl : (removePlugins ids c).1.store.plugins =
      ids.foldl (fun m n => aerase m n) c.store.plugins := by
    simp [removePlugins, updateState, applyPatch]
  have hps : (removePlugins ids c).1.store.pluginStates =
      ids.foldl (fun m n => aerase m n) c.store.pluginStates := by
    simp [removePlugins, updateState, applyPatch]
  have hhk : (removePlugins ids c).1.pluginRpcHooks =
      ids.foldl (fun m n => aerase m n) c.pluginRpcHooks := by
    simp [removePlugins, updateState]
  have htr : (removePlugins ids c).2 =
      removalTrace ids ++ [Effect.revokeAllPermissionsFor ids, Effect.publish] := rfl
  refine ⟨?_, ?_, ?_, htr, ?_, removalTrace_mem_removeHook ids pluginName hmem,
    removalTrace_mem_closeAll ids pluginName hmem, rfl⟩
  · rw [getPlugin, hpl, alookup_foldl_aerase]
    simp [hmem]
  · rw [getRpcMessageHandler, hhk, alookup_foldl_aerase]
    simp [hmem]
  · rw [hps, alookup_foldl_aerase]
    simp [hmem]
  · rw [htr, List.count_append]
    have h0 : (removalTrace ids).count (Effect.revokeAllPermissionsFor ids) = 0 :=
      List.count_eq_zero.mpr (revoke_not_mem_removalTrace ids ids)
    have h1 : ([Effect.revokeAllPermissionsFor ids, Effect.publish]).count
        (Effect.revokeAllPermissionsFor ids) = 1 := by
      rw [List.count_cons_self]
      have hnm : Effect.revokeAllPermissionsFor ids ∉ ([Effect.publish] : List Effect) := by
        intro hx
        exact Effect.noConfusion (List.mem_singleton.mp hx)
      rw [List.count_eq_zero.mpr hnm]
    rw [h0, h1]

/-- A controller holding record `p` with opaque state and a live RPC hook. -/
def cC9 : Controller :=
  { emptyController with
    store := { plugins := [("p", objFoo)], pluginStates := [("p", Value.vStr "s")] }
    pluginRpcHooks := [("p", "w1")] }

theorem removePlugins_cleanup_witness :
    getPlugin (removePlugins ["p"] cC9).1 "p" = none ∧
    getRpcMessageHandler (removePlugins ["p"] cC9).1 "p" = none ∧
    alookup (removePlugins ["p"] cC9).1.store.pluginStates "p" = none ∧
    (removePlugins ["p"] cC9).2 =
      removalTrace ["p"] ++ [Effect.revokeAllPermissionsFor ["p"], Effect.publish] ∧
    ((removePlugins ["p"] cC9).2).count (Effect.revokeAllPermissionsFor ["p"]) = 1 ∧
    Effect.removeHook "p" ∈ removalTrace ["p"] ∧
    Effect.closeAllConnections "p" ∈ removalTrace ["p"] ∧
    removePlugin "p" cC9 = removePlugins ["p"] cC9 :=
  removePlugins_cleanup cC9 ["p"] "p" (by decide)
